import Mathlib

/-!
# Verification of the helexa fleet control-plane subsystem

This file gives a shallow embedding, in Lean 4, of the fleet control-plane
subsystem of the helexa repository: the worker-side ("neuron") provisioning
state machine and process supervisor, the control-node-side ("cortex") fleet
registry with liveness pruning, the control-plane message schema and its JSON
wire encoding, the observation bus subscriber loop, and the reconnect backoff
discipline. Each definition is translated from the corresponding Rust source
item (named in its doc comment); theorems at the end of the file settle the
specification claims against these definitions.

Modelling conventions:
 * Rust `HashMap<K, V>` becomes an association list `List (K × V)` whose
   operations mirror the source (`find?` on the key for lookup, first-match
   replacement for insert); where a theorem needs the `HashMap` invariant that
   keys are unique, it takes it as an explicit `Nodup` hypothesis.
 * `std::time::Instant` becomes a `Nat` timestamp; `Instant::now()` becomes an
   explicit `now : Nat` argument threaded to the functions that call it.
   `Duration` values become `Nat` (saturating subtraction matches
   `duration_since` on the relevant, monotone inputs).
 * `serde_json::Value` becomes the inductive `Json` below, and the serde
   derive-generated serializers/deserializers for the message enums are
   spelled out as functions on `Json` trees following serde's documented
   tagging rules (`#[serde(tag = "kind", rename_all = "snake_case")]` for the
   session enums, external tagging for the `protocol` crate enums).
 * OS effects (spawning a child process) are abstracted by passing the OS
   outcome (`Except String Nat`, an error or the new pid) as an argument.
-/

namespace Helexa

/-- A JSON value, modelling `serde_json::Value` (numbers restricted to
integers, which covers every payload the control plane produces). -/
inductive Json where
  | null : Json
  | bool (b : Bool) : Json
  | num (n : Int) : Json
  | str (s : String) : Json
  | arr (items : List Json) : Json
  | obj (fields : List (String × Json)) : Json
  deriving Repr

/-- Look up the first field with the given key in a JSON object's field list,
as serde's map deserialisation does for struct fields. -/
def jGet (fields : List (String × Json)) (key : String) : Option Json :=
  (fields.find? (fun f => f.1 = key)).map (fun f => f.2)

namespace Protocol

/-- `protocol::ModelId` — logical identifier for a model (`ModelId(pub String)`). -/
structure ModelId where
  val : String
  deriving Repr, DecidableEq

/-- `protocol::EnvVar` — a single environment variable entry for backend processes. -/
structure EnvVar where
  key : String
  value : String
  deriving Repr, DecidableEq

/-- `protocol::ModelConfig` — configuration payload for a model as understood
by neurons. -/
structure ModelConfig where
  id : ModelId
  display_name : Option String
  backend_kind : String
  command : Option String
  args : List String
  env : List EnvVar
  listen_endpoint : Option String
  metadata : Json
  deriving Repr

/-- `protocol::ProvisioningCommand` — provisioning commands sent from cortex
to neuron over the control plane. -/
inductive ProvisioningCommand where
  | UpsertModelConfig (cfg : ModelConfig)
  | LoadModel (model_id : ModelId)
  | UnloadModel (model_id : ModelId)
  deriving Repr

/-- `protocol::ProvisioningResponse` — responses from neuron to cortex
acknowledging provisioning commands. -/
inductive ProvisioningResponse where
  | Ok (model_id : ModelId) (message : Option String)
  | Error (model_id : ModelId) (error : String)
  deriving Repr

/-- Whether a provisioning response is the `Error` variant. -/
def ProvisioningResponse.isError : ProvisioningResponse → Bool
  | .Ok _ _ => false
  | .Error _ _ => true

end Protocol

namespace Neuron

open Protocol

/-- `neuron::process::WorkerHandle` — opaque identifier for a backend process
managed by the process manager (logical model id plus OS pid). -/
structure WorkerHandle where
  model_id : String
  pid : Nat
  deriving Repr, DecidableEq

/-- `neuron::process::ProcessManager` state: the `workers` map (pid → `Child`;
we track the key set, the `Child` value being an opaque OS handle) and the
`by_model` map (model id → list of pids serving it). -/
structure ProcessManager where
  workers : List Nat
  by_model : List (String × List Nat)
  deriving Repr, DecidableEq

/-- `ProcessManager::new` / `Default::default()` — empty maps. -/
def ProcessManager.new : ProcessManager := ⟨[], []⟩

/-- Generic association-list insert mirroring `HashMap::insert`: replace the
(first) entry with the given key, else append a new entry. -/
def insertAL {α : Type} : List (String × α) → String → α → List (String × α)
  | [], k, v => [(k, v)]
  | e :: rest, k, v =>
    if e.1 = k then (k, v) :: rest
    else e :: insertAL rest k v

/-- Generic association-list lookup mirroring `HashMap::get`. -/
def lookupAL {α : Type} (m : List (String × α)) (k : String) : Option α :=
  (m.find? (fun e => e.1 = k)).map (fun e => e.2)

/-- `map.entry(model_id).and_modify(|pids| pids.push(pid)).or_insert_with(|| vec![pid])`
in `spawn_worker_with_env`: push onto the existing entry, else insert a fresh one. -/
def byModelInsert (m : List (String × List Nat)) (k : String) (pid : Nat) :
    List (String × List Nat) :=
  match m with
  | [] => [(k, [pid])]
  | e :: rest =>
    if e.1 = k then (e.1, e.2 ++ [pid]) :: rest
    else e :: byModelInsert rest k pid

/-- The `by_model.retain(|_model, pids| { pids.retain(|p| *p != pid); !pids.is_empty() })`
step of `terminate_worker_by_pid`: drop `pid` from every entry, then drop
entries that became empty. -/
def byModelRemovePid (m : List (String × List Nat)) (pid : Nat) :
    List (String × List Nat) :=
  (m.map (fun e => (e.1, e.2.filter (fun p => p ≠ pid)))).filter
    (fun e => ¬ e.2.isEmpty)

/-- `ProcessManager::spawn_worker_with_env` — spawn a backend worker process.
The OS spawn outcome (`command.spawn()?`) is passed in as `osSpawn`; on
success the new pid is tracked in the `workers` map and under `model_id` in
the `by_model` map, and a `WorkerHandle` is returned. The `cmd`, `args` and
`extra_env` parameters configure the OS spawn and do not affect tracking. -/
def ProcessManager.spawn_worker_with_env (pm : ProcessManager)
    (_cmd : String) (_args : List String) (model_id : String)
    (_extra_env : List (String × String)) (osSpawn : Except String Nat) :
    Except String (WorkerHandle × ProcessManager) :=
  match osSpawn with
  | .error e => .error e
  | .ok pid =>
    let workers' := if pm.workers.contains pid then pm.workers else pm.workers ++ [pid]
    let by_model' := byModelInsert pm.by_model model_id pid
    .ok (⟨model_id, pid⟩, ⟨workers', by_model'⟩)

/-- `ProcessManager::terminate_worker_by_pid` — remove the pid from the
`workers` map (killing the child is best-effort and does not affect
bookkeeping) and scrub it from every `by_model` entry. -/
def ProcessManager.terminate_worker_by_pid (pm : ProcessManager) (pid : Nat) :
    ProcessManager :=
  { workers := pm.workers.filter (fun p => p ≠ pid)
    by_model := byModelRemovePid pm.by_model pid }

/-- `ProcessManager::terminate_workers_for_model` — look up the pids serving
the model (empty if unknown), no-op when there are none, otherwise terminate
each pid in turn. -/
def ProcessManager.terminate_workers_for_model (pm : ProcessManager)
    (model_id : String) : ProcessManager :=
  let pids := (lookupAL pm.by_model model_id).getD []
  if pids.isEmpty then pm
  else pids.foldl (fun acc pid => acc.terminate_worker_by_pid pid) pm

/-- The pids the process supervisor currently tracks for a model
(`by_model.get(model_id).cloned().unwrap_or_default()`). -/
def ProcessManager.trackedPids (pm : ProcessManager) (model_id : String) : List Nat :=
  (lookupAL pm.by_model model_id).getD []

/-- `neuron::runtime::ModelConfigState` — in-memory map of model id →
configuration payload as last supplied by cortex. -/
structure ModelConfigState where
  configs : List (String × ModelConfig)

/-- `ModelConfigState::upsert` — `self.configs.insert(cfg.id.0.clone(), cfg)`. -/
def ModelConfigState.upsert (st : ModelConfigState) (cfg : ModelConfig) :
    ModelConfigState :=
  ⟨insertAL st.configs cfg.id.val cfg⟩

/-- `ModelConfigState::get` — `self.configs.get(&model_id.0)`. -/
def ModelConfigState.get (st : ModelConfigState) (model_id : ModelId) :
    Option ModelConfig :=
  lookupAL st.configs model_id.val

/-- `neuron::registry::ModelEntry` — a single model entry known to the
registry: a chat runtime handle (represented by the base URL of the
`ProcessRuntime` it wraps) and an optional worker id. -/
structure ModelEntry where
  endpoint : String
  worker_id : Option String
  deriving Repr, DecidableEq

/-- `neuron::registry::ModelRegistry` — tracks locally available models and
their runtime bindings (`entries : HashMap<String, ModelEntry>`). -/
structure ModelRegistry where
  models_dir : Option String
  entries : List (String × ModelEntry)

/-- `ModelRegistry::register_chat_model` — record the mapping in memory
(`self.entries.insert(model_id, entry)`). -/
def ModelRegistry.register_chat_model (r : ModelRegistry) (model_id : String)
    (entry : ModelEntry) : ModelRegistry :=
  { r with entries := insertAL r.entries model_id entry }

/-- Modelled from the spec: `ModelRegistry::unregister_chat_model` is called
by `NeuronControlImpl::handle_unload_model` but its definition is not among
the provided sources (only this call site is). Per §4.4 of the spec,
`UnloadModel` "always removes any registered runtime handle ... regardless of
whether the model was actually Running", so it removes the entry for the
given model id from the registry map. -/
def ModelRegistry.unregister_chat_model (r : ModelRegistry) (model_id : String) :
    ModelRegistry :=
  { r with entries := r.entries.filter (fun e => ¬ (e.1 = model_id)) }

/-- The mutable state owned by `neuron::runtime::RuntimeManager`: the model
registry, the process manager, the in-memory model configuration map, and the
backend port allocation counter (a `u16`, started at 9100). -/
structure RuntimeManager where
  registry : ModelRegistry
  process_manager : ProcessManager
  model_configs : ModelConfigState
  next_backend_port : Nat

/-- `RuntimeManager::allocate_backend_port` — return the current counter and
advance it by `guard.saturating_add(1).max(1024)` (u16 saturation at 65535). -/
def RuntimeManager.allocate_backend_port (st : RuntimeManager) :
    Nat × RuntimeManager :=
  (st.next_backend_port,
   { st with next_backend_port := Nat.max (Nat.min (st.next_backend_port + 1) 65535) 1024 })

/-- `RuntimeManager::derive_listen_endpoint` — an explicitly configured
`listen_endpoint` is returned verbatim; otherwise the command must be present
and the backend kind selects port-based derivation (`vllm` and `llama_cpp`
allocate a fresh port on loopback; any other kind is an error). -/
def RuntimeManager.derive_listen_endpoint (st : RuntimeManager)
    (cfg : ModelConfig) : Except String (String × RuntimeManager) :=
  match cfg.listen_endpoint with
  | some explicit => .ok (explicit, st)
  | none =>
    match cfg.command with
    | none => .error ("missing command in ModelConfig for model " ++ cfg.id.val)
    | some _ =>
      match cfg.backend_kind with
      | "vllm" =>
        let (port, st') := st.allocate_backend_port
        .ok ("http://127.0.0.1:" ++ toString port, st')
      | "llama_cpp" =>
        let (port, st') := st.allocate_backend_port
        .ok ("http://127.0.0.1:" ++ toString port, st')
      | other => .error ("unsupported backend_kind " ++ other ++ " for deriving listen endpoint")

/-- `NeuronControlImpl::handle_upsert_model_config` — write the configuration
into the in-memory map and respond `Ok` with "configuration updated". -/
def handle_upsert_model_config (st : RuntimeManager) (cfg : ModelConfig) :
    ProvisioningResponse × RuntimeManager :=
  let model_id := cfg.id
  (ProvisioningResponse.Ok model_id (some "configuration updated"),
   { st with model_configs := st.model_configs.upsert cfg })

/-- `NeuronControlImpl::handle_load_model` — look up the configuration
(`Error` if absent), derive the listen endpoint, check the command, spawn the
backend process (outcome `osSpawn`), register a runtime handle pointing at
the derived endpoint, and respond `Ok` with the endpoint in the message. -/
def handle_load_model (st : RuntimeManager) (model_id : ModelId)
    (osSpawn : Except String Nat) : ProvisioningResponse × RuntimeManager :=
  match st.model_configs.get model_id with
  | none =>
    (ProvisioningResponse.Error model_id
      "no configuration found for model; send UpsertModelConfig first", st)
  | some cfg =>
    match st.derive_listen_endpoint cfg with
    | .error e =>
      (ProvisioningResponse.Error cfg.id ("failed to derive listen endpoint: " ++ e), st)
    | .ok (listen, st1) =>
      match cfg.command with
      | none =>
        (ProvisioningResponse.Error cfg.id
          "missing command in ModelConfig; cortex must supply it", st1)
      | some cmd =>
        match st1.process_manager.spawn_worker_with_env cmd cfg.args cfg.id.val
            (cfg.env.map (fun e => (e.key, e.value))) osSpawn with
        | .error e =>
          (ProvisioningResponse.Error cfg.id ("failed to spawn backend process: " ++ e), st1)
        | .ok (worker, pm') =>
          let registry' := st1.registry.register_chat_model cfg.id.val
            ⟨listen, some (toString worker.pid)⟩
          (ProvisioningResponse.Ok cfg.id
            (some ("model loaded and serving at " ++ listen)),
           { st1 with process_manager := pm', registry := registry' })

/-- `NeuronControlImpl::handle_unload_model` — terminate all backend workers
for the model, remove it from the registry, and respond `Ok` unconditionally. -/
def handle_unload_model (st : RuntimeManager) (model_id : ModelId) :
    ProvisioningResponse × RuntimeManager :=
  let pm' := st.process_manager.terminate_workers_for_model model_id.val
  let registry' := st.registry.unregister_chat_model model_id.val
  (ProvisioningResponse.Ok model_id
    (some "unload requested; backend workers terminated and model unregistered"),
   { st with process_manager := pm', registry := registry' })

/-- `NeuronControlImpl::apply_provisioning` (the `NeuronControl` impl) —
dispatch a provisioning command to the dedicated handler. -/
def apply_provisioning (st : RuntimeManager) (cmd : ProvisioningCommand)
    (osSpawn : Except String Nat) : ProvisioningResponse × RuntimeManager :=
  match cmd with
  | .UpsertModelConfig cfg => handle_upsert_model_config st cfg
  | .LoadModel model_id => handle_load_model st model_id osSpawn
  | .UnloadModel model_id => handle_unload_model st model_id

/-- `neuron::control_plane::Backoff` — simple exponential backoff helper for
reconnect attempts (durations in seconds). -/
structure Backoff where
  current : Nat
  initial : Nat
  max : Nat
  deriving Repr, DecidableEq

/-- `Backoff::new(initial_secs, max_secs)`. -/
def Backoff.new (initial_secs max_secs : Nat) : Backoff :=
  ⟨initial_secs, initial_secs, max_secs⟩

/-- `Backoff::next_delay` — return the current delay; the stored delay doubles
and is clamped at `max`. -/
def Backoff.next_delay (b : Backoff) : Nat × Backoff :=
  (b.current,
   { b with current := if b.current * 2 > b.max then b.max else b.current * 2 })

/-- The delays the reconnect supervisor loop in `neuron::control_plane::spawn`
sleeps before retries, for `k` consecutive connection failures: each failed
session calls `backoff.next_delay()` once and sleeps that long (the loop never
calls `Backoff::reset`, and a clean exit breaks out of the loop instead of
retrying). -/
def Backoff.delays (b : Backoff) : Nat → List Nat
  | 0 => []
  | k + 1 =>
    let (d, b') := b.next_delay
    d :: b'.delays k

/-- The backoff actually constructed by the reconnect supervisor:
`Backoff::new(30, 3600)` — 30 s initial, capped at 1 h. -/
def reconnectDelays (k : Nat) : List Nat :=
  (Backoff.new 30 3600).delays k

end Neuron

namespace Cortex

open Protocol

/-- `cortex::control_plane::NeuronDescriptor` — a neuron as seen from cortex
over the control-plane websocket. -/
structure NeuronDescriptor where
  node_id : Option String
  label : Option String
  metadata : Json
  deriving Repr

/-- `cortex::control_plane::ConnectedNeuron` — descriptor, last-heartbeat
instant, and the optional outbound channel handle (modelled by presence). -/
structure ConnectedNeuron where
  descriptor : NeuronDescriptor
  last_heartbeat : Nat
  outbound_tx : Option Unit
  deriving Repr

/-- `NeuronRegistry::upsert_neuron` at time `now`: update the descriptor and
refresh the heartbeat of the first entry whose `node_id` equals the incoming
descriptor's (`iter_mut().find(...)`), else push a fresh record with no
outbound sender. The registry is the `Vec<ConnectedNeuron>` behind the lock. -/
def upsert_neuron (now : Nat) (descriptor : NeuronDescriptor) :
    List ConnectedNeuron → List ConnectedNeuron
  | [] => [⟨descriptor, now, none⟩]
  | n :: rest =>
    if n.descriptor.node_id = descriptor.node_id then
      ⟨descriptor, now, n.outbound_tx⟩ :: rest
    else
      n :: upsert_neuron now descriptor rest

/-- `NeuronRegistry::set_sender_for_neuron` — attach an outbound sender to the
first entry whose `node_id` is `Some(neuron_id)`; no-op when absent. -/
def set_sender_for_neuron (neuron_id : String) :
    List ConnectedNeuron → List ConnectedNeuron
  | [] => []
  | n :: rest =>
    if n.descriptor.node_id = some neuron_id then
      { n with outbound_tx := some () } :: rest
    else
      n :: set_sender_for_neuron neuron_id rest

/-- `NeuronRegistry::update_heartbeat` at time `now` — refresh the
`last_heartbeat` of the first entry whose `node_id` is `Some(neuron_id)`. -/
def update_heartbeat (neuron_id : String) (now : Nat) :
    List ConnectedNeuron → List ConnectedNeuron
  | [] => []
  | n :: rest =>
    if n.descriptor.node_id = some neuron_id then
      { n with last_heartbeat := now } :: rest
    else
      n :: update_heartbeat neuron_id now rest

/-- `NeuronRegistry::prune_stale` at time `now` — retain exactly the entries
whose elapsed time since last heartbeat is within the timeout
(`neurons.retain(|n| now.duration_since(n.last_heartbeat) <= timeout)`). -/
def prune_stale (now timeout : Nat) (neurons : List ConnectedNeuron) :
    List ConnectedNeuron :=
  neurons.filter (fun n => now - n.last_heartbeat ≤ timeout)

/-- A registry-affecting step of the control plane: a heartbeat handled by a
connection's reader task, or a tick of the background pruning loop in
`start_control_plane_server`. -/
inductive RegEvent where
  | hb (neuron_id : String) (t : Nat)
  | prune (t : Nat) (timeout : Nat)

/-- Apply one registry step. -/
def regStep (reg : List ConnectedNeuron) : RegEvent → List ConnectedNeuron
  | .hb neuron_id t => update_heartbeat neuron_id t reg
  | .prune t timeout => prune_stale t timeout reg

/-- Run a sequence of registry steps. -/
def regRun (reg : List ConnectedNeuron) (events : List RegEvent) :
    List ConnectedNeuron :=
  events.foldl regStep reg

end Cortex

namespace Protocol

/-- Serialize an `Option<String>` field as serde does: `None` → `null`,
`Some s` → the string. -/
def seOptStr : Option String → Json
  | none => Json.null
  | some s => Json.str s

/-- Deserialize a `String` JSON value. -/
def asStr : Json → Option String
  | .str s => some s
  | _ => none

/-- Deserialize an `Option<String>` struct field as serde does: a missing
field or `null` is `None`, a string is `Some`, anything else is an error. -/
def deOptStrField (fields : List (String × Json)) (key : String) :
    Option (Option String) :=
  match jGet fields key with
  | none => some none
  | some Json.null => some none
  | some (Json.str s) => some (some s)
  | some _ => none

/-- `protocol::EnvVar` serialization (plain struct → JSON object). -/
def EnvVar.toJson (e : EnvVar) : Json :=
  Json.obj [("key", Json.str e.key), ("value", Json.str e.value)]

/-- `protocol::EnvVar` deserialization. -/
def EnvVar.fromJson : Json → Option EnvVar
  | .obj fields => do
    let key ← (jGet fields "key").bind asStr
    let value ← (jGet fields "value").bind asStr
    pure ⟨key, value⟩
  | _ => none

/-- `protocol::ModelConfig` serialization: a JSON object with the struct's
fields in declaration order; `ModelId` is a newtype over `String` and
serializes as the bare string. -/
def ModelConfig.toJson (cfg : ModelConfig) : Json :=
  Json.obj
    [ ("id", Json.str cfg.id.val)
    , ("display_name", seOptStr cfg.display_name)
    , ("backend_kind", Json.str cfg.backend_kind)
    , ("command", seOptStr cfg.command)
    , ("args", Json.arr (cfg.args.map Json.str))
    , ("env", Json.arr (cfg.env.map EnvVar.toJson))
    , ("listen_endpoint", seOptStr cfg.listen_endpoint)
    , ("metadata", cfg.metadata) ]

/-- `protocol::ModelConfig` deserialization (unknown fields are ignored,
`Option` fields default to `None` when missing, all other fields are
required — serde's default behaviour for a derived struct). -/
def ModelConfig.fromJson : Json → Option ModelConfig
  | .obj fields => do
    let id ← (jGet fields "id").bind asStr
    let display_name ← deOptStrField fields "display_name"
    let backend_kind ← (jGet fields "backend_kind").bind asStr
    let command ← deOptStrField fields "command"
    let argsJson ← jGet fields "args"
    let args ← match argsJson with
      | .arr items => items.mapM asStr
      | _ => none
    let envJson ← jGet fields "env"
    let env ← match envJson with
      | .arr items => items.mapM EnvVar.fromJson
      | _ => none
    let listen_endpoint ← deOptStrField fields "listen_endpoint"
    let metadata ← jGet fields "metadata"
    pure ⟨⟨id⟩, display_name, backend_kind, command, args, env, listen_endpoint, metadata⟩
  | _ => none

/-- `protocol::ProvisioningCommand` serialization — the enum has no serde
attributes, so serde uses external tagging: a one-entry object keyed by the
variant name. -/
def ProvisioningCommand.toJson : ProvisioningCommand → Json
  | .UpsertModelConfig cfg => Json.obj [("UpsertModelConfig", cfg.toJson)]
  | .LoadModel model_id =>
    Json.obj [("LoadModel", Json.obj [("model_id", Json.str model_id.val)])]
  | .UnloadModel model_id =>
    Json.obj [("UnloadModel", Json.obj [("model_id", Json.str model_id.val)])]

/-- `protocol::ProvisioningCommand` deserialization (externally tagged: a
one-entry object selects the variant). -/
def ProvisioningCommand.fromJson : Json → Option ProvisioningCommand
  | .obj [("UpsertModelConfig", v)] =>
    (ModelConfig.fromJson v).map ProvisioningCommand.UpsertModelConfig
  | .obj [("LoadModel", .obj fields)] =>
    ((jGet fields "model_id").bind asStr).map
      (fun s => ProvisioningCommand.LoadModel ⟨s⟩)
  | .obj [("UnloadModel", .obj fields)] =>
    ((jGet fields "model_id").bind asStr).map
      (fun s => ProvisioningCommand.UnloadModel ⟨s⟩)
  | _ => none

/-- `protocol::ProvisioningResponse` serialization (externally tagged). -/
def ProvisioningResponse.toJson : ProvisioningResponse → Json
  | .Ok model_id message =>
    Json.obj [("Ok", Json.obj
      [("model_id", Json.str model_id.val), ("message", seOptStr message)])]
  | .Error model_id error =>
    Json.obj [("Error", Json.obj
      [("model_id", Json.str model_id.val), ("error", Json.str error)])]

/-- `protocol::ProvisioningResponse` deserialization (externally tagged). -/
def ProvisioningResponse.fromJson : Json → Option ProvisioningResponse
  | .obj [("Ok", .obj fields)] => do
    let model_id ← (jGet fields "model_id").bind asStr
    let message ← deOptStrField fields "message"
    pure (ProvisioningResponse.Ok ⟨model_id⟩ message)
  | .obj [("Error", .obj fields)] => do
    let model_id ← (jGet fields "model_id").bind asStr
    let error ← (jGet fields "error").bind asStr
    pure (ProvisioningResponse.Error ⟨model_id⟩ error)
  | _ => none

end Protocol

namespace Neuron

open Protocol

/-- `neuron::control_plane::NeuronDescriptor` — minimal descriptor for this
neuron as reported to cortex. -/
structure NeuronDescriptor where
  node_id : Option String
  hostname : String
  domain : Option String
  label : Option String
  metadata : Json

/-- `NeuronDescriptor` serialization (plain struct, fields in order). -/
def NeuronDescriptor.toJson (d : NeuronDescriptor) : Json :=
  Json.obj
    [ ("node_id", seOptStr d.node_id)
    , ("hostname", Json.str d.hostname)
    , ("domain", seOptStr d.domain)
    , ("label", seOptStr d.label)
    , ("metadata", d.metadata) ]

/-- `neuron::control_plane::NeuronToCortex` — messages sent from neuron to
cortex over the websocket (this side only serializes them). -/
inductive NeuronToCortex where
  | Register (neuron : NeuronDescriptor)
  | Heartbeat (neuron_id : String) (metrics : Json)
  | ProvisioningResponse (neuron_id : String) (response : Protocol.ProvisioningResponse)
  | Shutdown (neuron_id : String) (reason : Option String)

/-- Serialization of the neuron-side `NeuronToCortex` under
`#[serde(tag = "kind", rename_all = "snake_case")]`: an object carrying the
`kind` tag plus the variant's fields inline. -/
def NeuronToCortex.toJson : NeuronToCortex → Json
  | .Register neuron =>
    Json.obj [("kind", Json.str "register"), ("neuron", neuron.toJson)]
  | .Heartbeat neuron_id metrics =>
    Json.obj [("kind", Json.str "heartbeat"),
              ("neuron_id", Json.str neuron_id), ("metrics", metrics)]
  | .ProvisioningResponse neuron_id response =>
    Json.obj [("kind", Json.str "provisioning_response"),
              ("neuron_id", Json.str neuron_id), ("response", response.toJson)]
  | .Shutdown neuron_id reason =>
    Json.obj [("kind", Json.str "shutdown"),
              ("neuron_id", Json.str neuron_id), ("reason", seOptStr reason)]

/-- `neuron::control_plane::CortexToNeuron` — messages the neuron expects
from cortex (this side only deserializes them). -/
inductive CortexToNeuron where
  | Provisioning (cmd : ProvisioningCommand)
  | RequestCapabilities
  | ShutdownNotice (reason : Option String)

/-- Deserialization of the neuron-side `CortexToNeuron` (tagged by `kind`,
snake_case variant names; an unknown tag is an error). -/
def CortexToNeuron.fromJson : Json → Option CortexToNeuron
  | .obj fields =>
    match jGet fields "kind" with
    | some (Json.str "provisioning") =>
      ((jGet fields "cmd").bind ProvisioningCommand.fromJson).map
        CortexToNeuron.Provisioning
    | some (Json.str "request_capabilities") => some CortexToNeuron.RequestCapabilities
    | some (Json.str "shutdown_notice") =>
      (deOptStrField fields "reason").map CortexToNeuron.ShutdownNotice
    | _ => none
  | _ => none

end Neuron

namespace Cortex

open Protocol

/-- `cortex::control_plane::NeuronToCortex` — messages cortex can parse from
a neuron. Note: this enum has only three variants (`Register`, `Heartbeat`,
`ProvisioningResponse`); unlike the neuron-side sender enum it has no
`Shutdown` variant. -/
inductive NeuronToCortex where
  | Register (neuron : NeuronDescriptor)
  | Heartbeat (neuron_id : String) (metrics : Json)
  | ProvisioningResponse (neuron_id : String) (response : Protocol.ProvisioningResponse)

/-- Deserialization of the cortex-side `NeuronToCortex` (tagged by `kind`,
snake_case; the cortex-side `NeuronDescriptor` reads `node_id`, `label` and
`metadata` and ignores unknown fields such as `hostname`/`domain`; an unknown
`kind` — in particular `"shutdown"` — is a parse error). -/
def NeuronDescriptor.fromJson : Json → Option NeuronDescriptor
  | Json.obj fields => do
    let node_id ← deOptStrField fields "node_id"
    let label ← deOptStrField fields "label"
    let metadata ← jGet fields "metadata"
    pure ⟨node_id, label, metadata⟩
  | _ => none

/-- Deserialization of the cortex-side `NeuronToCortex` enum itself. -/
def NeuronToCortex.fromJson : Json → Option NeuronToCortex
  | .obj fields =>
    match jGet fields "kind" with
    | some (Json.str "register") =>
      ((jGet fields "neuron").bind NeuronDescriptor.fromJson).map
        NeuronToCortex.Register
    | some (Json.str "heartbeat") => do
      let neuron_id ← (jGet fields "neuron_id").bind asStr
      let metrics ← jGet fields "metrics"
      pure (NeuronToCortex.Heartbeat neuron_id metrics)
    | some (Json.str "provisioning_response") => do
      let neuron_id ← (jGet fields "neuron_id").bind asStr
      let response ← (jGet fields "response").bind ProvisioningResponse.fromJson
      pure (NeuronToCortex.ProvisioningResponse neuron_id response)
    | _ => none
  | _ => none

/-- `cortex::control_plane::CortexToNeuron` — messages cortex can send to a
neuron. Note: only `Provisioning` and `RequestCapabilities`; unlike the
neuron-side receiver enum there is no `ShutdownNotice` variant. -/
inductive CortexToNeuron where
  | Provisioning (cmd : ProvisioningCommand)
  | RequestCapabilities

/-- Serialization of the cortex-side `CortexToNeuron` (tagged by `kind`,
snake_case). -/
def CortexToNeuron.toJson : CortexToNeuron → Json
  | .Provisioning cmd =>
    Json.obj [("kind", Json.str "provisioning"), ("cmd", cmd.toJson)]
  | .RequestCapabilities =>
    Json.obj [("kind", Json.str "request_capabilities")]

/-- The registration phase of `cortex::control_plane::handle_neuron_connection`
applied to the first frame received on a new connection (as a JSON payload,
`frame`): parse it with `parse_ws_json::<NeuronToCortex>` (an unparseable
payload is an error), require the `Register` variant (anything else is an
error that terminates the connection), and on `Register` upsert the neuron
into the registry, attach the outbound sender, and return the derived neuron
id. The second component is the registry after the call; error paths return
it untouched. -/
def handle_first_frame (now : Nat) (peer : String)
    (reg : List ConnectedNeuron) (frame : Json) :
    Except String String × List ConnectedNeuron :=
  match NeuronToCortex.fromJson frame with
  | none => (.error "failed to parse websocket JSON payload", reg)
  | some (NeuronToCortex.Register neuron) =>
    let id := neuron.node_id.getD ("peer-" ++ peer)
    let reg1 := upsert_neuron now neuron reg
    let reg2 := set_sender_for_neuron id reg1
    (.ok id, reg2)
  | some _ => (.error "expected Register message from neuron", reg)

/-- Modelled from the spec: `cortex::control_plane::ModelProvisioningStatus`
is referenced by `observe.rs` and `cache_state.rs` but its definition is not
among the provided sources. Per §3 of the spec it is the "control node's
cached belief about one model on one worker: model id, last known
response/state". -/
structure ModelProvisioningStatus where
  model_id : String
  last_response : Option ProvisioningResponse

/-- `cortex::observe::ObserveEvent` — events published onto the observe bus
for dashboard consumption. -/
inductive ObserveEvent where
  | NeuronRegistered (neuron : NeuronDescriptor)
  | NeuronRemoved (neuron_id : String)
  | NeuronHeartbeat (neuron_id : String) (metrics : Json)
  | ProvisioningSent (neuron_id : String) (cmd : ProvisioningCommand)
  | ProvisioningResponse (neuron_id : String) (response : Protocol.ProvisioningResponse)
  | ModelStateChanged (neuron_id : String) (models : List ModelProvisioningStatus)

/-- One outcome of `events_rx.recv().await` on the observe bus subscriber's
`tokio::sync::broadcast::Receiver`: the next event, the lag signal
(`RecvError::Lagged(n)`, raised when the subscriber fell behind the channel
capacity and `n` oldest events were discarded), or `RecvError::Closed`. -/
inductive RecvOutcome where
  | ok (event : ObserveEvent)
  | lagged (skipped : Nat)
  | closed

/-- The event-forwarding arm of the `loop { tokio::select! { ... } }` in
`cortex::observe::handle_observer_connection`, run over a script of receive
outcomes: `Ok(event)` is forwarded to the client and the loop continues;
any `Err` (`Lagged` or `Closed` alike — the code matches `Err(e)` without
distinguishing) logs a warning and `break`s out of the loop. Returns the
events forwarded before the loop exited. -/
def observerForwarded : List RecvOutcome → List ObserveEvent
  | [] => []
  | .ok e :: rest => e :: observerForwarded rest
  | .lagged _ :: _ => []
  | .closed :: _ => []

/-- Whether the subscriber's event loop survives the whole receive script
(i.e. never hits the `break` in the `Err` arm). -/
def observerLoopRuns : List RecvOutcome → Bool
  | [] => true
  | .ok _ :: rest => observerLoopRuns rest
  | .lagged _ :: _ => false
  | .closed :: _ => false

end Cortex

/-! ## Derived observation functions and sample states used by theorems -/

namespace Neuron

open Protocol

/-- A concrete worker state for exercising the unload path: one loaded model
`m1` backed by pid 101, one registry entry for it. -/
def sampleLoadedState : RuntimeManager :=
  { registry := ⟨none, [("m1", ⟨"http://127.0.0.1:9100", some "101"⟩)]⟩
    process_manager := ⟨[101], [("m1", [101])]⟩
    model_configs := ⟨[]⟩
    next_backend_port := 9101 }

/-- Concrete fresh worker state for the load-model witness. -/
def sampleFreshState : RuntimeManager :=
  { registry := ⟨none, []⟩
    process_manager := ProcessManager.new
    model_configs := ⟨[]⟩
    next_backend_port := 9100 }

/-- Concrete llama.cpp model configuration for the load-model witness. -/
def sampleLlamaConfig : ModelConfig :=
  { id := ⟨"m1"⟩
    display_name := some "Llama"
    backend_kind := "llama_cpp"
    command := some "llama-server"
    args := ["-m", "model.gguf"]
    env := []
    listen_endpoint := none
    metadata := Json.obj [] }

end Neuron

namespace Cortex

/-- The registry records whose `node_id` equals the given optional stable id
(the same key comparison `upsert_neuron` uses). -/
def recordsFor (reg : List ConnectedNeuron) (oid : Option String) :
    List ConnectedNeuron :=
  reg.filter (fun n => n.descriptor.node_id = oid)

/-- Fold a sequence of `(now, descriptor)` upserts over the registry, as
successive registrations / re-registrations do. -/
def regUpserts (reg : List ConnectedNeuron) (us : List (Nat × NeuronDescriptor)) :
    List ConnectedNeuron :=
  us.foldl (fun r p => upsert_neuron p.1 p.2 r) reg

/-- Pacing discipline for one worker (stable id `w`, heartbeat interval  bound
`h`): between any prune tick and the worker's most recent heartbeat at most
`h` time elapsed, and `h` is below that prune's timeout. The index is the
worker's current last-heartbeat timestamp. -/
inductive Paced (w : String) (h : Nat) : Nat → List RegEvent → Prop where
  | nil (last : Nat) : Paced w h last []
  | hb_self (last t : Nat) (es : List RegEvent) :
      Paced w h t es → Paced w h last (RegEvent.hb w t :: es)
  | hb_other (last : Nat) (id : String) (t : Nat) (es : List RegEvent) :
      id ≠ w → Paced w h last es → Paced w h last (RegEvent.hb id t :: es)
  | prune (last t timeout : Nat) (es : List RegEvent) :
      t - last ≤ h → h < timeout → Paced w h last es →
      Paced w h last (RegEvent.prune t timeout :: es)

end Cortex

/-! ## Helper lemmas -/

namespace Neuron

theorem lookupAL_cons {α : Type} (e : String × α) (rest : List (String × α))
    (k : String) :
    lookupAL (e :: rest) k = if e.1 = k then some e.2 else lookupAL rest k := by
  by_cases h : e.1 = k <;> simp [lookupAL, List.find?_cons, h]

theorem lookupAL_insertAL_self {α : Type} (m : List (String × α)) (k : String)
    (v : α) : lookupAL (insertAL m k v) k = some v := by
  induction m with
  | nil => simp [insertAL, lookupAL, List.find?_cons]
  | cons e rest ih =>
    by_cases h : e.1 = k
    · simp [insertAL, h, lookupAL_cons]
    · rw [insertAL, if_neg h, lookupAL_cons, if_neg h, ih]

theorem lookupAL_byModelInsert (m : List (String × List Nat)) (k : String)
    (pid : Nat) :
    lookupAL (byModelInsert m k pid) k =
      some ((lookupAL m k).getD [] ++ [pid]) := by
  induction m with
  | nil => simp [byModelInsert, lookupAL, List.find?_cons]
  | cons e rest ih =>
    by_cases h : e.1 = k
    · rw [byModelInsert, if_pos h, lookupAL_cons, if_pos h, lookupAL_cons, if_pos h]
      rfl
    · rw [byModelInsert, if_neg h, lookupAL_cons, if_neg h, lookupAL_cons, if_neg h, ih]

theorem byModelRemovePid_cons (e : String × List Nat)
    (rest : List (String × List Nat)) (pid : Nat) :
    byModelRemovePid (e :: rest) pid =
      if (e.2.filter (fun p => p ≠ pid)).isEmpty then byModelRemovePid rest pid
      else (e.1, e.2.filter (fun p => p ≠ pid)) :: byModelRemovePid rest pid := by
  rw [byModelRemovePid, List.map_cons, List.filter_cons]
  by_cases hg : ((e.2.filter (fun p => p ≠ pid)).isEmpty : Bool) = true
  · simp only [hg, byModelRemovePid, if_true]
    simp
  · simp only [hg, byModelRemovePid, if_false]
    simp [hg]

theorem lookupAL_eq_none_of_not_mem {α : Type} (m : List (String × α)) (k : String)
    (h : k ∉ m.map Prod.fst) : lookupAL m k = none := by
  have hf : m.find? (fun e => e.1 = k) = none := by
    rw [List.find?_eq_none]
    intro e he
    simp only [decide_eq_true_eq]
    intro hek
    exact h (List.mem_map.mpr ⟨e, he, by simpa using hek⟩)
  simp [lookupAL, hf]

theorem lookupAL_byModelRemovePid_of_none (m : List (String × List Nat)) (pid : Nat)
    (k : String) (h : lookupAL m k = none) :
    lookupAL (byModelRemovePid m pid) k = none := by
  induction m with
  | nil => simp [byModelRemovePid, lookupAL]
  | cons e rest ih =>
    rw [lookupAL_cons] at h
    by_cases he : e.1 = k
    · rw [if_pos he] at h
      exact absurd h (by simp)
    · rw [if_neg he] at h
      have hrest := ih h
      rw [byModelRemovePid_cons]
      by_cases hg : ((e.2.filter (fun p => p ≠ pid)).isEmpty : Bool) = true
      · rw [if_pos hg]; exact hrest
      · rw [if_neg hg, lookupAL_cons, if_neg he]; exact hrest

theorem byModelRemovePid_keys_sublist (m : List (String × List Nat)) (pid : Nat) :
    ((byModelRemovePid m pid).map Prod.fst).Sublist (m.map Prod.fst) := by
  induction m with
  | nil => simp [byModelRemovePid]
  | cons e rest ih =>
    rw [byModelRemovePid_cons]
    by_cases hg : ((e.2.filter (fun p => p ≠ pid)).isEmpty : Bool) = true
    · rw [if_pos hg]
      exact ih.trans (List.sublist_cons_self _ _)
    · rw [if_neg hg, List.map_cons]
      exact ih.cons₂ e.1

theorem byModelRemovePid_keys_nodup (m : List (String × List Nat)) (pid : Nat)
    (hnd : (m.map Prod.fst).Nodup) :
    ((byModelRemovePid m pid).map Prod.fst).Nodup :=
  hnd.sublist (byModelRemovePid_keys_sublist m pid)

theorem lookupAL_cons_mk {α : Type} (k1 : String) (v : α)
    (rest : List (String × α)) (k : String) :
    lookupAL ((k1, v) :: rest) k = if k1 = k then some v else lookupAL rest k := by
  simpa using lookupAL_cons (k1, v) rest k

theorem lookupAL_byModelRemovePid (m : List (String × List Nat)) (pid : Nat)
    (k : String) (hnd : (m.map Prod.fst).Nodup) :
    lookupAL (byModelRemovePid m pid) k =
      match lookupAL m k with
      | none => none
      | some l =>
        if (l.filter (fun p => p ≠ pid)).isEmpty then none
        else some (l.filter (fun p => p ≠ pid)) := by
  induction m with
  | nil => simp [byModelRemovePid, lookupAL]
  | cons e rest ih =>
    rw [List.map_cons, List.nodup_cons] at hnd
    obtain ⟨hke, hndrest⟩ := hnd
    rw [byModelRemovePid_cons, lookupAL_cons]
    by_cases he : e.1 = k
    · rw [if_pos he]
      have hnone : lookupAL rest k = none :=
        lookupAL_eq_none_of_not_mem rest k (by rw [← he]; exact hke)
      by_cases hg : ((e.2.filter (fun p => p ≠ pid)).isEmpty : Bool) = true
      · rw [if_pos hg]
        rw [lookupAL_byModelRemovePid_of_none rest pid k hnone]
        exact (if_pos hg).symm
      · rw [if_neg hg, lookupAL_cons_mk, if_pos he]
        exact (if_neg hg).symm
    · rw [if_neg he]
      by_cases hg : ((e.2.filter (fun p => p ≠ pid)).isEmpty : Bool) = true
      · rw [if_pos hg]
        exact ih hndrest
      · rw [if_neg hg, lookupAL_cons_mk, if_neg he]
        exact ih hndrest

theorem trackedPids_terminate_fold (k : String) (l : List Nat) :
    ∀ pm : ProcessManager, (pm.by_model.map Prod.fst).Nodup →
      (∀ q ∈ pm.trackedPids k, q ∈ l) →
      (l.foldl (fun acc pid => acc.terminate_worker_by_pid pid) pm).trackedPids k = [] := by
  induction l with
  | nil =>
    intro pm _ hsub
    rw [List.foldl_nil]
    exact List.eq_nil_iff_forall_not_mem.mpr (fun q hq => by simpa using hsub q hq)
  | cons p rest ih =>
    intro pm hnd hsub
    rw [List.foldl_cons]
    apply ih
    · exact byModelRemovePid_keys_nodup pm.by_model p hnd
    · intro q hq
      simp only [ProcessManager.trackedPids, ProcessManager.terminate_worker_by_pid] at hq
      rw [lookupAL_byModelRemovePid pm.by_model p k hnd] at hq
      cases hlk : lookupAL pm.by_model k with
      | none => simp [hlk] at hq
      | some l0 =>
        simp only [hlk] at hq
        by_cases hg : ((l0.filter (fun q => q ≠ p)).isEmpty : Bool) = true
        · rw [if_pos hg] at hq
          simp at hq
        · rw [if_neg hg] at hq
          simp only [Option.getD_some] at hq
          have hin : q ∈ l0 := List.mem_of_mem_filter hq
          have hqp : q ≠ p := by simpa using List.of_mem_filter hq
          have hql : q ∈ p :: rest := by
            apply hsub
            simp only [ProcessManager.trackedPids, hlk, Option.getD_some]
            exact hin
          rcases List.mem_cons.mp hql with h | h
          · exact absurd h hqp
          · exact h

theorem trackedPids_terminate_workers_for_model (pm : ProcessManager) (k : String)
    (hnd : (pm.by_model.map Prod.fst).Nodup) :
    (pm.terminate_workers_for_model k).trackedPids k = [] := by
  simp only [ProcessManager.terminate_workers_for_model]
  by_cases h : (((lookupAL pm.by_model k).getD []).isEmpty : Bool) = true
  · rw [if_pos h]
    simp only [ProcessManager.trackedPids]
    exact List.isEmpty_iff.mp h
  · rw [if_neg h]
    exact trackedPids_terminate_fold k _ pm hnd (fun q hq => hq)

theorem terminate_workers_noop (pm : ProcessManager) (k : String)
    (h : pm.trackedPids k = []) : pm.terminate_workers_for_model k = pm := by
  simp only [ProcessManager.terminate_workers_for_model]
  rw [if_pos]
  simp only [ProcessManager.trackedPids] at h
  rw [h]
  rfl

theorem lookupAL_unregister (r : ModelRegistry) (k : String) :
    lookupAL (r.unregister_chat_model k).entries k = none := by
  simp only [ModelRegistry.unregister_chat_model]
  have hf : (r.entries.filter (fun e => ¬ (e.1 = k))).find? (fun e => e.1 = k) = none := by
    rw [List.find?_eq_none]
    intro e he
    have := List.of_mem_filter he
    simpa using this
  simp [lookupAL, hf]

theorem unregister_noop (r : ModelRegistry) (k : String)
    (h : lookupAL r.entries k = none) : r.unregister_chat_model k = r := by
  simp only [ModelRegistry.unregister_chat_model]
  have hall : ∀ e ∈ r.entries, ¬ (e.1 = k) := by
    intro e he
    have hf : r.entries.find? (fun e => e.1 = k) = none := by
      simp only [lookupAL] at h
      exact Option.map_eq_none.mp h
    have := List.find?_eq_none.mp hf e he
    simpa using this
  have : r.entries.filter (fun e => ¬ (e.1 = k)) = r.entries := by
    apply List.filter_eq_self.mpr
    intro e he
    simpa using hall e he
  rw [this]

end Neuron

/-! ## Claim theorems -/

namespace Neuron

open Protocol

/-- C2: Handling `UnloadModel(id)` always returns `ProvisioningResponse::Ok`;
afterwards the process supervisor tracks zero processes for `id` and the
runtime-handle registry has no entry for `id`; handling `UnloadModel(id)`
again when nothing is loaded is a no-op on the state that still returns
`Ok`. -/
theorem unload_model_idempotent_cleanup (st : RuntimeManager) (id : ModelId)
    (hnd : (st.process_manager.by_model.map Prod.fst).Nodup) :
    (handle_unload_model st id).1 =
      ProvisioningResponse.Ok id
        (some "unload requested; backend workers terminated and model unregistered") ∧
    ((handle_unload_model st id).2).process_manager.trackedPids id.val = [] ∧
    lookupAL ((handle_unload_model st id).2).registry.entries id.val = none ∧
    handle_unload_model (handle_unload_model st id).2 id =
      ((handle_unload_model st id).1, (handle_unload_model st id).2) := by
  have h2 : ((handle_unload_model st id).2).process_manager.trackedPids id.val = [] :=
    trackedPids_terminate_workers_for_model st.process_manager id.val hnd
  have h3 : lookupAL ((handle_unload_model st id).2).registry.entries id.val = none :=
    lookupAL_unregister st.registry id.val
  refine ⟨rfl, h2, h3, ?_⟩
  have e1 : ((handle_unload_model st id).2).process_manager.terminate_workers_for_model
      id.val = ((handle_unload_model st id).2).process_manager :=
    terminate_workers_noop _ _ h2
  have e2 : ((handle_unload_model st id).2).registry.unregister_chat_model id.val =
      ((handle_unload_model st id).2).registry :=
    unregister_noop _ _ h3
  have hstep : handle_unload_model (handle_unload_model st id).2 id =
      (ProvisioningResponse.Ok id
        (some "unload requested; backend workers terminated and model unregistered"),
       { (handle_unload_model st id).2 with
           process_manager :=
             ((handle_unload_model st id).2).process_manager.terminate_workers_for_model id.val
           registry :=
             ((handle_unload_model st id).2).registry.unregister_chat_model id.val }) := rfl
  rw [hstep, e1, e2]
  exact rfl

/-- Witness for C2 at the concrete state `sampleLoadedState`. -/
theorem unload_model_idempotent_cleanup_witness :
    (handle_unload_model sampleLoadedState ⟨"m1"⟩).1 =
      ProvisioningResponse.Ok ⟨"m1"⟩
        (some "unload requested; backend workers terminated and model unregistered") ∧
    ((handle_unload_model sampleLoadedState ⟨"m1"⟩).2).process_manager.trackedPids "m1" = [] ∧
    lookupAL ((handle_unload_model sampleLoadedState ⟨"m1"⟩).2).registry.entries "m1" = none ∧
    handle_unload_model (handle_unload_model sampleLoadedState ⟨"m1"⟩).2 ⟨"m1"⟩ =
      ((handle_unload_model sampleLoadedState ⟨"m1"⟩).1,
       (handle_unload_model sampleLoadedState ⟨"m1"⟩).2) :=
  unload_model_idempotent_cleanup sampleLoadedState ⟨"m1"⟩ (by decide)

/-- C5: every call to `ProcessManager::spawn_worker_with_env` that returns a
`WorkerHandle` successfully records the returned pid in both indices — the
pid-to-child map (`workers`) and the model-id-to-pids map (`by_model`) under
the given model id — while a failed spawn returns the error without touching
either index (so the spawn is never visible to the caller in one index but
not the other). -/
theorem spawn_records_both_indices (pm : ProcessManager) (cmd : String)
    (args : List String) (model_id : String) (env : List (String × String)) :
    (∀ pid w pm',
        pm.spawn_worker_with_env cmd args model_id env (Except.ok pid) =
          Except.ok (w, pm') →
        w = ⟨model_id, pid⟩ ∧ pid ∈ pm'.workers ∧ pid ∈ pm'.trackedPids model_id) ∧
    (∀ e, pm.spawn_worker_with_env cmd args model_id env (Except.error e) =
        Except.error e) := by
  constructor
  · intro pid w pm' h
    simp only [ProcessManager.spawn_worker_with_env, Except.ok.injEq, Prod.mk.injEq] at h
    obtain ⟨hw, hpm⟩ := h
    refine ⟨hw.symm, ?_, ?_⟩
    · rw [← hpm]
      by_cases hc : pid ∈ pm.workers
      · simp [hc]
      · simp [hc]
    · rw [← hpm]
      simp only [ProcessManager.trackedPids]
      rw [lookupAL_byModelInsert]
      exact List.mem_append_right _ (List.mem_singleton_self pid)
  · intro e
    rfl

/-- Witness for C5 at a concrete process-manager state. -/
theorem spawn_records_both_indices_witness :
    ((ProcessManager.mk [7] [("m0", [7])]).spawn_worker_with_env "llama-server"
        ["-m", "model.gguf"] "m1" [] (Except.ok 42) =
      Except.ok (⟨"m1", 42⟩, ProcessManager.mk [7, 42] [("m0", [7]), ("m1", [42])]) →
      (⟨"m1", 42⟩ : WorkerHandle) = ⟨"m1", 42⟩ ∧
      (42 : Nat) ∈ (ProcessManager.mk [7, 42] [("m0", [7]), ("m1", [42])]).workers ∧
      (42 : Nat) ∈ (ProcessManager.mk [7, 42] [("m0", [7]), ("m1", [42])]).trackedPids "m1") ∧
    ((ProcessManager.mk [7] [("m0", [7])]).spawn_worker_with_env "llama-server"
        ["-m", "model.gguf"] "m1" [] (Except.error "No such file or directory") =
      Except.error "No such file or directory") :=
  ⟨(spawn_records_both_indices (ProcessManager.mk [7] [("m0", [7])]) "llama-server"
      ["-m", "model.gguf"] "m1" []).1 42 ⟨"m1", 42⟩
      (ProcessManager.mk [7, 42] [("m0", [7]), ("m1", [42])]),
   (spawn_records_both_indices (ProcessManager.mk [7] [("m0", [7])]) "llama-server"
      ["-m", "model.gguf"] "m1" []).2 "No such file or directory"⟩

/-- C1: `LoadModel(id)` handled before any `UpsertModelConfig(id)` yields
`ProvisioningResponse::Error`; handled after an `UpsertModelConfig(id)` (with
a command present, no explicit endpoint and a supported backend kind, so the
load reaches the spawn), a successful backend spawn yields
`ProvisioningResponse::Ok` whose message contains a non-empty endpoint
string, and the process supervisor then tracks exactly one process for
`id`. -/
theorem load_model_requires_config_then_tracks_one
    (st : RuntimeManager) (id : ModelId) (osSpawn : Except String Nat)
    (cfg : ModelConfig) (cmd : String) (pid : Nat) :
    (st.model_configs.get id = none →
      handle_load_model st id osSpawn =
        (ProvisioningResponse.Error id
          "no configuration found for model; send UpsertModelConfig first", st)) ∧
    (cfg.id = id → cfg.command = some cmd → cfg.listen_endpoint = none →
     (cfg.backend_kind = "vllm" ∨ cfg.backend_kind = "llama_cpp") →
     st.process_manager.trackedPids id.val = [] →
     ∃ listen : String,
       listen = "http://127.0.0.1:" ++ toString st.next_backend_port ∧
       listen ≠ "" ∧
       (handle_load_model (handle_upsert_model_config st cfg).2 id (Except.ok pid)).1 =
         ProvisioningResponse.Ok id (some ("model loaded and serving at " ++ listen)) ∧
       ((handle_load_model (handle_upsert_model_config st cfg).2 id
           (Except.ok pid)).2).process_manager.trackedPids id.val = [pid]) := by
  constructor
  · intro h
    simp [handle_load_model, h]
  · intro hid hcmd hle hbk htracked
    subst hid
    have hget : (st.model_configs.upsert cfg).get cfg.id = some cfg := by
      simp only [ModelConfigState.get, ModelConfigState.upsert]
      exact lookupAL_insertAL_self _ _ _
    have hne : ("http://127.0.0.1:" ++ toString st.next_backend_port : String) ≠ "" := by
      intro hempty
      have hlen := congrArg String.length hempty
      rw [String.length_append] at hlen
      rw [show ("http://127.0.0.1:" : String).length = 17 from by decide] at hlen
      rw [show ("" : String).length = 0 from rfl] at hlen
      omega
    refine ⟨"http://127.0.0.1:" ++ toString st.next_backend_port, rfl, hne, ?_⟩
    have htr : ∀ pm' : ProcessManager,
        pm'.by_model = byModelInsert st.process_manager.by_model cfg.id.val pid →
        pm'.trackedPids cfg.id.val = [pid] := by
      intro pm' hbm
      simp only [ProcessManager.trackedPids, hbm]
      rw [lookupAL_byModelInsert]
      simp only [ProcessManager.trackedPids] at htracked
      rw [htracked]
      rfl
    rcases hbk with hbk | hbk <;>
      (constructor
       · simp [handle_load_model, hget, RuntimeManager.derive_listen_endpoint, hle, hcmd,
           hbk, RuntimeManager.allocate_backend_port, ProcessManager.spawn_worker_with_env,
           handle_upsert_model_config]
       · apply htr
         simp [handle_load_model, hget, RuntimeManager.derive_listen_endpoint, hle, hcmd,
           hbk, RuntimeManager.allocate_backend_port, ProcessManager.spawn_worker_with_env,
           handle_upsert_model_config])

/-- Witness for C1 at a fresh worker state and a concrete configuration. -/
theorem load_model_requires_config_then_tracks_one_witness :
    (handle_load_model sampleFreshState ⟨"m1"⟩ (Except.ok 42) =
      (ProvisioningResponse.Error ⟨"m1"⟩
        "no configuration found for model; send UpsertModelConfig first",
       sampleFreshState)) ∧
    (∃ listen : String,
       listen = "http://127.0.0.1:" ++ toString (9100 : Nat) ∧
       listen ≠ "" ∧
       (handle_load_model (handle_upsert_model_config sampleFreshState sampleLlamaConfig).2
          ⟨"m1"⟩ (Except.ok 42)).1 =
         ProvisioningResponse.Ok ⟨"m1"⟩ (some ("model loaded and serving at " ++ listen)) ∧
       ((handle_load_model (handle_upsert_model_config sampleFreshState sampleLlamaConfig).2
          ⟨"m1"⟩ (Except.ok 42)).2).process_manager.trackedPids "m1" = [42]) :=
  ⟨(load_model_requires_config_then_tracks_one sampleFreshState ⟨"m1"⟩ (Except.ok 42)
      sampleLlamaConfig "llama-server" 42).1 rfl,
   (load_model_requires_config_then_tracks_one sampleFreshState ⟨"m1"⟩ (Except.ok 42)
      sampleLlamaConfig "llama-server" 42).2 rfl rfl rfl (Or.inr rfl) rfl⟩

theorem Backoff.delays_closed_form (k : Nat) :
    ∀ c i m, c ≤ m →
      Backoff.delays ⟨c, i, m⟩ k =
        (List.range k).map (fun j => Nat.min (c * 2 ^ j) m) := by
  induction k with
  | zero => intro c i m _; rfl
  | succ k ih =>
    intro c i m hcm
    rw [List.range_succ_eq_map, List.map_cons, List.map_map]
    have hstep : Backoff.delays ⟨c, i, m⟩ (k + 1) =
        c :: Backoff.delays ⟨if c * 2 > m then m else c * 2, i, m⟩ k := rfl
    rw [hstep]
    have hc' : (if c * 2 > m then m else c * 2) ≤ m := by split <;> omega
    rw [ih _ i m hc']
    have hhead : Nat.min (c * 2 ^ 0) m = c := by
      rw [pow_zero, Nat.mul_one]
      exact Nat.min_eq_left hcm
    have htail : (fun j => Nat.min ((if c * 2 > m then m else c * 2) * 2 ^ j) m) =
        ((fun j => Nat.min (c * 2 ^ j) m) ∘ Nat.succ) := by
      funext j
      simp only [Function.comp_apply]
      by_cases h : c * 2 > m
      · rw [if_pos h]
        have h1 : Nat.min (m * 2 ^ j) m = m :=
          Nat.min_eq_right (Nat.le_mul_of_pos_right m (Nat.pos_pow_of_pos j (by omega)))
      -- `2 ≤ 2 ^ (j + 1)`, so `m < c * 2 ≤ c * 2 ^ (j + 1)`
        have h2 : Nat.min (c * 2 ^ (j + 1)) m = m := by
          apply Nat.min_eq_right
          have hp : c * 2 ≤ c * 2 ^ (j + 1) := by
            apply Nat.mul_le_mul_left
            calc (2 : Nat) = 2 ^ 1 := by norm_num
            _ ≤ 2 ^ (j + 1) := Nat.pow_le_pow_right (by omega) (by omega)
          omega
        rw [h1, h2]
      · rw [if_neg h]
        congr 1
        rw [pow_succ]
        ring
    rw [htail, hhead]

/-- C8: for every run of `k` consecutive connection failures from a cold
state, the reconnect supervisor's delay before the `j+1`-st retry equals
`min(initial * 2^j, max)` — i.e. `d, 2d, 4d, ...` capped at the configured
maximum — and the delay sequence is nondecreasing (it is never reset to the
initial value while the reconnect loop is still running; the loop never calls
`Backoff::reset`). The source's cold start is `Backoff::new(30, 3600)`, which
satisfies `initial ≤ max`. -/
theorem reconnect_backoff_schedule (initial max k : Nat) (h : initial ≤ max) :
    (Backoff.new initial max).delays k =
      (List.range k).map (fun j => Nat.min (initial * 2 ^ j) max) ∧
    List.Chain' (fun a b => a ≤ b) ((Backoff.new initial max).delays k) := by
  have hcf : (Backoff.new initial max).delays k =
      (List.range k).map (fun j => Nat.min (initial * 2 ^ j) max) :=
    Backoff.delays_closed_form k initial initial max h
  refine ⟨hcf, ?_⟩
  rw [hcf, List.chain'_map]
  cases k with
  | zero => simp
  | succ k =>
    rw [List.chain'_range_succ]
    intro j _
    have hmono : initial * 2 ^ j ≤ initial * 2 ^ (j + 1) :=
      Nat.mul_le_mul_left initial (Nat.pow_le_pow_right (by omega) (by omega))
    exact min_le_min hmono (le_refl max)

/-- Witness for C8 at the source's configuration (30 s initial, 1 h cap) over
nine consecutive failures, where the cap becomes active. -/
theorem reconnect_backoff_schedule_witness :
    (Backoff.new 30 3600).delays 9 =
      (List.range 9).map (fun j => Nat.min (30 * 2 ^ j) 3600) ∧
    List.Chain' (fun a b => a ≤ b) ((Backoff.new 30 3600).delays 9) :=
  reconnect_backoff_schedule 30 3600 9 (by omega)

end Neuron

namespace Cortex

theorem recordsFor_cons (n : ConnectedNeuron) (rest : List ConnectedNeuron)
    (oid : Option String) :
    recordsFor (n :: rest) oid =
      if n.descriptor.node_id = oid then n :: recordsFor rest oid
      else recordsFor rest oid := by
  by_cases h : n.descriptor.node_id = oid <;> simp [recordsFor, List.filter_cons, h]

theorem recordsFor_upsert (oid : Option String) (now : Nat) (d : NeuronDescriptor)
    (hd : d.node_id = oid) :
    ∀ reg : List ConnectedNeuron, (recordsFor reg oid).length ≤ 1 →
      ∃ tx, recordsFor (upsert_neuron now d reg) oid = [⟨d, now, tx⟩] := by
  intro reg
  induction reg with
  | nil =>
    intro _
    refine ⟨none, ?_⟩
    simp [upsert_neuron, recordsFor, List.filter_cons, hd]
  | cons n rest ih =>
    intro hlen
    by_cases hn : n.descriptor.node_id = d.node_id
    · refine ⟨n.outbound_tx, ?_⟩
      have hrest : recordsFor rest oid = [] := by
        rw [recordsFor_cons, if_pos (by rw [hn, hd])] at hlen
        simpa using hlen
      simp only [upsert_neuron, if_pos hn]
      rw [recordsFor_cons, if_pos hd, hrest]
    · have hn' : ¬ (n.descriptor.node_id = oid) := by rw [← hd]; exact hn
      have hlen' : (recordsFor rest oid).length ≤ 1 := by
        rwa [recordsFor_cons, if_neg hn'] at hlen
      obtain ⟨tx, htx⟩ := ih hlen'
      refine ⟨tx, ?_⟩
      simp only [upsert_neuron, if_neg hn]
      rw [recordsFor_cons, if_neg hn', htx]

theorem recordsFor_regUpserts_le_one (oid : Option String)
    (us : List (Nat × NeuronDescriptor))
    (hall : ∀ p ∈ us, p.2.node_id = oid) :
    ∀ reg : List ConnectedNeuron, (recordsFor reg oid).length ≤ 1 →
      (recordsFor (regUpserts reg us) oid).length ≤ 1 := by
  induction us with
  | nil => intro reg hle; exact hle
  | cons p rest ih =>
    intro reg hle
    have hstep : regUpserts reg (p :: rest) = regUpserts (upsert_neuron p.1 p.2 reg) rest := rfl
    rw [hstep]
    obtain ⟨tx, htx⟩ :=
      recordsFor_upsert oid p.1 p.2 (hall p (List.mem_cons_self p rest)) reg hle
    exact ih (fun q hq => hall q (List.mem_cons_of_mem p hq)) _ (by rw [htx]; simp)

/-- C3: for every sequence of upserts whose descriptors carry the same stable
worker id, the registry holds exactly one record for that id, its descriptor
equals the last upserted descriptor, and its last-heartbeat instant is the
time of the last upsert (each upsert in the sequence being the last of some
prefix, the heartbeat is reset at every upsert). -/
theorem registry_upsert_single_record (w : String)
    (us : List (Nat × NeuronDescriptor)) (t : Nat) (d : NeuronDescriptor)
    (reg : List ConnectedNeuron)
    (hall : ∀ p ∈ us, p.2.node_id = some w) (hd : d.node_id = some w)
    (hinit : (recordsFor reg (some w)).length ≤ 1) :
    ∃ tx, recordsFor (regUpserts reg (us ++ [(t, d)])) (some w) =
      [⟨d, t, tx⟩] := by
  have h1 : (recordsFor (regUpserts reg us) (some w)).length ≤ 1 :=
    recordsFor_regUpserts_le_one (some w) us hall reg hinit
  have hsplit : regUpserts reg (us ++ [(t, d)]) =
      upsert_neuron t d (regUpserts reg us) := by
    simp [regUpserts, List.foldl_append]
  rw [hsplit]
  exact recordsFor_upsert (some w) t d hd (regUpserts reg us) h1

/-- Two concrete anonymous-or-named descriptors for registry witnesses. -/
def sampleDescriptor (oid : Option String) (label : String) : NeuronDescriptor :=
  ⟨oid, some label, Json.obj []⟩

/-- Witness for C3: two successive upserts of descriptors with stable id
`w1` into an empty registry leave exactly one record carrying the second
descriptor and its upsert time. -/
theorem registry_upsert_single_record_witness :
    ∃ tx, recordsFor
        (regUpserts []
          ([(5, sampleDescriptor (some "w1") "gpu-box-1")] ++
            [(9, sampleDescriptor (some "w1") "gpu-box-1b")]))
        (some "w1") =
      [⟨sampleDescriptor (some "w1") "gpu-box-1b", 9, tx⟩] :=
  registry_upsert_single_record "w1" [(5, sampleDescriptor (some "w1") "gpu-box-1")]
    9 (sampleDescriptor (some "w1") "gpu-box-1b") []
    (by
      intro p hp
      rw [List.mem_singleton.mp hp]
      rfl)
    rfl (by simp [recordsFor])

/-- C10: `upsert_neuron` keys records by equality of the optional stable id,
so all anonymous descriptors (`node_id = None`) are treated as the same
worker: after any sequence of anonymous upserts the registry holds exactly
one record with id `None` (in particular at most one), and each later
anonymous upsert has replaced that record's descriptor and refreshed its
heartbeat rather than inserting a second record. -/
theorem registry_upsert_anonymous_single_record
    (us : List (Nat × NeuronDescriptor)) (t : Nat) (d : NeuronDescriptor)
    (reg : List ConnectedNeuron)
    (hall : ∀ p ∈ us, p.2.node_id = none) (hd : d.node_id = none)
    (hinit : (recordsFor reg none).length ≤ 1) :
    ∃ tx, recordsFor (regUpserts reg (us ++ [(t, d)])) none = [⟨d, t, tx⟩] := by
  have h1 : (recordsFor (regUpserts reg us) none).length ≤ 1 :=
    recordsFor_regUpserts_le_one none us hall reg hinit
  have hsplit : regUpserts reg (us ++ [(t, d)]) =
      upsert_neuron t d (regUpserts reg us) := by
    simp [regUpserts, List.foldl_append]
  rw [hsplit]
  exact recordsFor_upsert none t d hd (regUpserts reg us) h1

/-- Witness for C10: two successive anonymous upserts into an empty registry
leave exactly one record with id `None`, carrying the second descriptor. -/
theorem registry_upsert_anonymous_single_record_witness :
    ∃ tx, recordsFor
        (regUpserts []
          ([(3, sampleDescriptor none "anon-a")] ++ [(7, sampleDescriptor none "anon-b")]))
        none =
      [⟨sampleDescriptor none "anon-b", 7, tx⟩] :=
  registry_upsert_anonymous_single_record [(3, sampleDescriptor none "anon-a")]
    7 (sampleDescriptor none "anon-b") []
    (by
      intro p hp
      rw [List.mem_singleton.mp hp]
      rfl)
    rfl (by simp [recordsFor])

theorem find?_update_heartbeat_self (w : String) (t : Nat) :
    ∀ (reg : List ConnectedNeuron) (n : ConnectedNeuron),
      reg.find? (fun x => x.descriptor.node_id = some w) = some n →
      (update_heartbeat w t reg).find? (fun x => x.descriptor.node_id = some w) =
        some { n with last_heartbeat := t } := by
  intro reg
  induction reg with
  | nil => intro n h; simp at h
  | cons n0 rest ih =>
    intro n h
    by_cases h0 : n0.descriptor.node_id = some w
    · rw [List.find?_cons_of_pos _ (by simpa using h0)] at h
      have hn : n0 = n := by simpa using h
      subst hn
      simp only [update_heartbeat, if_pos h0]
      exact List.find?_cons_of_pos _ (by simpa using h0)
    · rw [List.find?_cons_of_neg _ (by simpa using h0)] at h
      simp only [update_heartbeat, if_neg h0]
      rw [List.find?_cons_of_neg _ (by simpa using h0)]
      exact ih n h

theorem find?_update_heartbeat_other (w id : String) (hne : id ≠ w) (t : Nat) :
    ∀ reg : List ConnectedNeuron,
      (update_heartbeat id t reg).find? (fun x => x.descriptor.node_id = some w) =
        reg.find? (fun x => x.descriptor.node_id = some w) := by
  intro reg
  induction reg with
  | nil => rfl
  | cons n0 rest ih =>
    by_cases h0 : n0.descriptor.node_id = some id
    · have hp : ¬ (n0.descriptor.node_id = some w) := by
        rw [h0]
        simp [hne]
      simp only [update_heartbeat, if_pos h0]
      rw [List.find?_cons_of_neg _ (by simpa using hp),
        List.find?_cons_of_neg _ (by simpa using hp)]
    · simp only [update_heartbeat, if_neg h0]
      by_cases hp : n0.descriptor.node_id = some w
      · rw [List.find?_cons_of_pos _ (by simpa using hp),
          List.find?_cons_of_pos _ (by simpa using hp)]
      · rw [List.find?_cons_of_neg _ (by simpa using hp),
          List.find?_cons_of_neg _ (by simpa using hp)]
        exact ih

theorem find?_prune_stale (now timeout : Nat) (w : String) :
    ∀ (reg : List ConnectedNeuron) (n : ConnectedNeuron),
      reg.find? (fun x => x.descriptor.node_id = some w) = some n →
      now - n.last_heartbeat ≤ timeout →
      (prune_stale now timeout reg).find? (fun x => x.descriptor.node_id = some w) =
        some n := by
  intro reg
  induction reg with
  | nil => intro n h; simp at h
  | cons n0 rest ih =>
    intro n h hkeep
    by_cases hp : n0.descriptor.node_id = some w
    · rw [List.find?_cons_of_pos _ (by simpa using hp)] at h
      have hn : n0 = n := by simpa using h
      subst hn
      rw [prune_stale, List.filter_cons, if_pos (by simpa using hkeep)]
      exact List.find?_cons_of_pos _ (by simpa using hp)
    · rw [List.find?_cons_of_neg _ (by simpa using hp)] at h
      rw [prune_stale, List.filter_cons]
      by_cases hk : now - n0.last_heartbeat ≤ timeout
      · rw [if_pos (by simpa using hk), List.find?_cons_of_neg _ (by simpa using hp)]
        exact ih n h hkeep
      · rw [if_neg (by simpa using hk)]
        exact ih n h hkeep

/-- C4: membership after `prune_stale(timeout)` at time `now` holds iff the
record was present and its elapsed-since-heartbeat does not exceed the
timeout (so a record is removed iff elapsed > timeout); and a worker whose
heartbeats keep every prune within `h < timeout` of its latest heartbeat is
never removed: after any paced run of heartbeat and prune steps its record is
still found in the registry. -/
theorem prune_stale_exceeds_timeout_and_paced_survival :
    (∀ (now timeout : Nat) (reg : List ConnectedNeuron) (n : ConnectedNeuron),
        n ∈ prune_stale now timeout reg ↔
          n ∈ reg ∧ now - n.last_heartbeat ≤ timeout) ∧
    (∀ (w : String) (h last : Nat) (events : List RegEvent)
        (reg : List ConnectedNeuron),
        Paced w h last events →
        (∃ n, reg.find? (fun x => x.descriptor.node_id = some w) = some n ∧
              n.last_heartbeat = last) →
        ∃ n', (regRun reg events).find?
            (fun x => x.descriptor.node_id = some w) = some n') := by
  constructor
  · intro now timeout reg n
    simp [prune_stale, List.mem_filter]
  · intro w h last events reg hp
    induction hp generalizing reg with
    | nil last =>
      rintro ⟨n, hn, _⟩
      exact ⟨n, hn⟩
    | hb_self last t es _ ih =>
      rintro ⟨n, hn, _⟩
      have hstep : regRun reg (RegEvent.hb w t :: es) =
          regRun (update_heartbeat w t reg) es := rfl
      rw [hstep]
      exact ih _ ⟨{ n with last_heartbeat := t },
        find?_update_heartbeat_self w t reg n hn, rfl⟩
    | hb_other last id t es hne _ ih =>
      rintro ⟨n, hn, hlast⟩
      have hstep : regRun reg (RegEvent.hb id t :: es) =
          regRun (update_heartbeat id t reg) es := rfl
      rw [hstep]
      refine ih _ ⟨n, ?_, hlast⟩
      rw [find?_update_heartbeat_other w id hne t reg]
      exact hn
    | prune last t timeout es hth hto _ ih =>
      rintro ⟨n, hn, hlast⟩
      have hstep : regRun reg (RegEvent.prune t timeout :: es) =
          regRun (prune_stale t timeout reg) es := rfl
      rw [hstep]
      refine ih _ ⟨n, ?_, hlast⟩
      exact find?_prune_stale t timeout w reg n hn (by rw [hlast]; omega)

/-- Witness for C4: the membership characterisation at a concrete pruning
call, and survival of a concrete worker heartbeating at interval 50 under
timeout 90 across a heartbeat-prune-heartbeat-prune run. -/
theorem prune_stale_exceeds_timeout_and_paced_survival_witness :
    ((⟨sampleDescriptor (some "w1") "gpu-box-1", 0, none⟩ : ConnectedNeuron) ∈
        prune_stale 100 90 [⟨sampleDescriptor (some "w1") "gpu-box-1", 0, none⟩] ↔
      (⟨sampleDescriptor (some "w1") "gpu-box-1", 0, none⟩ : ConnectedNeuron) ∈
          [(⟨sampleDescriptor (some "w1") "gpu-box-1", 0, none⟩ : ConnectedNeuron)] ∧
        100 - 0 ≤ 90) ∧
    (∃ n', (regRun [⟨sampleDescriptor (some "w1") "gpu-box-1", 0, none⟩]
        [RegEvent.hb "w1" 50, RegEvent.prune 100 90,
         RegEvent.hb "w1" 150, RegEvent.prune 200 90]).find?
        (fun x => x.descriptor.node_id = some "w1") = some n') :=
  ⟨prune_stale_exceeds_timeout_and_paced_survival.1 100 90
      [⟨sampleDescriptor (some "w1") "gpu-box-1", 0, none⟩]
      ⟨sampleDescriptor (some "w1") "gpu-box-1", 0, none⟩,
   prune_stale_exceeds_timeout_and_paced_survival.2 "w1" 60 0
      [RegEvent.hb "w1" 50, RegEvent.prune 100 90,
       RegEvent.hb "w1" 150, RegEvent.prune 200 90]
      [⟨sampleDescriptor (some "w1") "gpu-box-1", 0, none⟩]
      (Paced.hb_self 0 50 _
        (Paced.prune 50 100 90 _ (by omega) (by omega)
          (Paced.hb_self 50 150 _
            (Paced.prune 150 200 90 _ (by omega) (by omega) (Paced.nil 150)))))
      ⟨⟨sampleDescriptor (some "w1") "gpu-box-1", 0, none⟩, rfl, rfl⟩⟩

/-- C7 counterexample: a subscriber that receives the lag signal does NOT
resume from the next available event, contradicting the claim at a concrete
input: after `Lagged(1)` the loop forwards nothing — the next event
(`NeuronRemoved "w1"`) is never delivered — and the event loop has
terminated (the `Err` arm breaks on `Lagged` just as on `Closed`). -/
theorem observer_lag_not_resumed :
    observerForwarded [RecvOutcome.lagged 1,
        RecvOutcome.ok (ObserveEvent.NeuronRemoved "w1")] = [] ∧
    observerLoopRuns [RecvOutcome.lagged 1,
        RecvOutcome.ok (ObserveEvent.NeuronRemoved "w1")] = false :=
  ⟨rfl, rfl⟩

/-- C7 (amended): the observer's receive loop treats the lag signal exactly
like a closed channel — on `Lagged(n)` it breaks out of the event loop,
forwarding no further events (it does not resume from the next available
event), while an ordinary event is forwarded and the loop continues. -/
theorem observer_lag_terminates_loop :
    (∀ (n : Nat) (rest : List RecvOutcome),
        observerForwarded (RecvOutcome.lagged n :: rest) = [] ∧
        observerLoopRuns (RecvOutcome.lagged n :: rest) = false) ∧
    (∀ (e : ObserveEvent) (rest : List RecvOutcome),
        observerForwarded (RecvOutcome.ok e :: rest) =
          e :: observerForwarded rest ∧
        observerLoopRuns (RecvOutcome.ok e :: rest) = observerLoopRuns rest) :=
  ⟨fun _ _ => ⟨rfl, rfl⟩, fun _ _ => ⟨rfl, rfl⟩⟩

/-- C9: if the first frame received on a new control-plane connection parses
to anything other than a `Register` message (including not parsing at all),
the connection handler terminates that connection with an error and the
fleet registry is left exactly as it was — no record is inserted. -/
theorem first_frame_requires_register (now : Nat) (peer : String)
    (reg : List ConnectedNeuron) (frame : Json)
    (h : ∀ n, NeuronToCortex.fromJson frame ≠ some (NeuronToCortex.Register n)) :
    (∃ e, (handle_first_frame now peer reg frame).1 = Except.error e) ∧
    (handle_first_frame now peer reg frame).2 = reg := by
  cases hparse : NeuronToCortex.fromJson frame with
  | none =>
    constructor
    · exact ⟨"failed to parse websocket JSON payload", by
        simp [handle_first_frame, hparse]⟩
    · simp [handle_first_frame, hparse]
  | some msg =>
    cases msg with
    | Register n => exact absurd hparse (h n)
    | Heartbeat neuron_id metrics =>
      constructor
      · exact ⟨"expected Register message from neuron", by
          simp [handle_first_frame, hparse]⟩
      · simp [handle_first_frame, hparse]
    | ProvisioningResponse neuron_id response =>
      constructor
      · exact ⟨"expected Register message from neuron", by
          simp [handle_first_frame, hparse]⟩
      · simp [handle_first_frame, hparse]

/-- Witness for C9: a heartbeat frame as first frame, and an unparseable
frame, both leave a one-entry registry untouched and end in an error. -/
theorem first_frame_requires_register_witness :
    ((∃ e, (handle_first_frame 7 "10.0.0.9:555"
        [⟨sampleDescriptor (some "w1") "gpu-box-1", 0, none⟩]
        (Json.obj [("kind", Json.str "heartbeat"), ("neuron_id", Json.str "w2"),
          ("metrics", Json.obj [])])).1 = Except.error e) ∧
      (handle_first_frame 7 "10.0.0.9:555"
        [⟨sampleDescriptor (some "w1") "gpu-box-1", 0, none⟩]
        (Json.obj [("kind", Json.str "heartbeat"), ("neuron_id", Json.str "w2"),
          ("metrics", Json.obj [])])).2 =
        [⟨sampleDescriptor (some "w1") "gpu-box-1", 0, none⟩]) ∧
    ((∃ e, (handle_first_frame 7 "10.0.0.9:555"
        [⟨sampleDescriptor (some "w1") "gpu-box-1", 0, none⟩]
        (Json.str "garbage")).1 = Except.error e) ∧
      (handle_first_frame 7 "10.0.0.9:555"
        [⟨sampleDescriptor (some "w1") "gpu-box-1", 0, none⟩]
        (Json.str "garbage")).2 =
        [⟨sampleDescriptor (some "w1") "gpu-box-1", 0, none⟩]) :=
  ⟨first_frame_requires_register 7 "10.0.0.9:555"
      [⟨sampleDescriptor (some "w1") "gpu-box-1", 0, none⟩]
      (Json.obj [("kind", Json.str "heartbeat"), ("neuron_id", Json.str "w2"),
        ("metrics", Json.obj [])])
      (fun n hc => by
        rw [show NeuronToCortex.fromJson
            (Json.obj [("kind", Json.str "heartbeat"), ("neuron_id", Json.str "w2"),
              ("metrics", Json.obj [])]) =
            some (NeuronToCortex.Heartbeat "w2" (Json.obj [])) from rfl] at hc
        injection hc with hc'
        exact NeuronToCortex.noConfusion hc'),
   first_frame_requires_register 7 "10.0.0.9:555"
      [⟨sampleDescriptor (some "w1") "gpu-box-1", 0, none⟩]
      (Json.str "garbage")
      (fun n hc => by
        rw [show NeuronToCortex.fromJson (Json.str "garbage") = none from rfl] at hc
        exact Option.noConfusion hc)⟩

end Cortex

/-- C6: evaluation of the wire encoding at the failing input. Heartbeat and
provisioning-response messages round-trip from the neuron serializer to the
cortex deserializer, but the `Shutdown` message the neuron sends on SIGTERM
(`{kind: "shutdown", neuron_id: "w1", reason: "process exiting"}`) is
rejected by the cortex-side deserializer, whose `NeuronToCortex` enum has no
`Shutdown` variant; and no value of the cortex-side `CortexToNeuron` enum
serializes to a `shutdown_notice` frame (the variant does not exist there),
even though the neuron-side deserializer accepts such frames. -/
theorem shutdown_variants_dropped_by_cortex :
    (∀ (nid : String) (metrics : Json),
        Cortex.NeuronToCortex.fromJson
            ((Neuron.NeuronToCortex.Heartbeat nid metrics).toJson) =
          some (Cortex.NeuronToCortex.Heartbeat nid metrics)) ∧
    (∀ (nid : String) (resp : Protocol.ProvisioningResponse),
        Cortex.NeuronToCortex.fromJson
            ((Neuron.NeuronToCortex.ProvisioningResponse nid resp).toJson) =
          some (Cortex.NeuronToCortex.ProvisioningResponse nid resp)) ∧
    Cortex.NeuronToCortex.fromJson
        ((Neuron.NeuronToCortex.Shutdown "w1" (some "process exiting")).toJson) =
      none ∧
    (∀ (m : Cortex.CortexToNeuron) (reason : Option String),
        m.toJson ≠ Json.obj [("kind", Json.str "shutdown_notice"),
          ("reason", Protocol.seOptStr reason)]) ∧
    Neuron.CortexToNeuron.fromJson
        (Json.obj [("kind", Json.str "shutdown_notice"), ("reason", Json.null)]) =
      some (Neuron.CortexToNeuron.ShutdownNotice none) := by
  refine ⟨fun nid metrics => rfl, ?_, rfl, ?_, rfl⟩
  · intro nid resp
    cases resp with
    | Ok mid msg => cases msg <;> rfl
    | Error mid err => rfl
  · intro m reason h
    cases m with
    | Provisioning cmd => simp [Cortex.CortexToNeuron.toJson] at h
    | RequestCapabilities => simp [Cortex.CortexToNeuron.toJson] at h

end Helexa
